import Mathlib

/-!
Verification of the Mqtt-Palooza core against its specification.

This file shallowly embeds the Python modules
`mqtt_palooza/core/neural_message.py`, `mqtt_palooza/core/context_refiner.py`
and `mqtt_palooza/core/darwin.py` into Lean and settles the spec claims
about them.  Python machine floats are modelled as exact rationals,
Python strings as Lean strings (lists of characters), and Python dicts as
ordered association lists, matching the insertion-order semantics of
CPython dicts.  Randomness (`random.random`, `random.choice`, ...) and the
clock (`time.time`) are modelled as explicit oracle inputs.
-/

/-! ## Python string primitives (operations used by the source) -/

/-- Lowercase a string character by character, modelling `str.lower()`
(ASCII-faithful, which covers every string the source compares). -/
def pyLower (s : String) : String :=
  String.mk (s.data.map Char.toLower)

/-- Test whether the first list is an initial run of the second one. -/
def leadsList : List Char → List Char → Bool
  | [], _ => true
  | _ :: _, [] => false
  | a :: as, b :: bs => a == b && leadsList as bs

/-- Python `str.find`: index of the first occurrence of `pat` in `s`,
`-1` when there is none (`"".find` of an empty pattern is `0`). -/
def findSub (s pat : List Char) : Int :=
  if leadsList pat s then 0
  else
    match s with
    | [] => -1
    | _ :: rest =>
      let r := findSub rest pat
      if r < 0 then -1 else r + 1

/-- Python `in` on strings: `pat` occurs somewhere in `s`.  Python defines
membership through the same scan as `str.find`. -/
def containsSub (s pat : List Char) : Bool :=
  !(findSub s pat == -1)

/-- Counting loop behind `pyCount` for a nonempty pattern `p :: ps`:
Python counts non-overlapping occurrences scanning from the left. -/
def countFrom (p : Char) (ps : List Char) : List Char → Nat
  | [] => 0
  | c :: rest =>
    if leadsList (p :: ps) (c :: rest) then
      1 + countFrom p ps (rest.drop ps.length)
    else
      countFrom p ps rest
termination_by s => s.length
decreasing_by
  all_goals simp_all
  omega

/-- Python `str.count`: non-overlapping occurrences of `pat` in `s`; the
empty pattern is counted `len(s) + 1` times, as in CPython. -/
def pyCount (s pat : List Char) : Nat :=
  match pat with
  | [] => s.length + 1
  | p :: ps => countFrom p ps s

/-- A `str.find` result is never below `-1`. -/
theorem findSub_ge_neg_one (s pat : List Char) : -1 ≤ findSub s pat := by
  induction s with
  | nil =>
    rw [findSub]
    split
    · omega
    · omega
  | cons c rest ih =>
    rw [findSub]
    split
    · omega
    · simp only
      split
      · omega
      · omega

/-- When the pattern occurs, `str.find` returns a genuine index. -/
theorem findSub_nonneg (s pat : List Char) (h : containsSub s pat = true) :
    0 ≤ findSub s pat := by
  have h1 := findSub_ge_neg_one s pat
  simp only [containsSub, Bool.not_eq_true', beq_eq_false_iff_ne, ne_eq] at h
  omega

/-! ## Python values and dicts -/

/-- Values carried in message payloads and mutation dicts: the msgpack- and
json-serializable subset of Python the source moves around.  Machine
floats are modelled as exact rationals. -/
inductive MPValue where
  | vStr (s : String)
  | vInt (n : Int)
  | vFloat (q : ℚ)
  | vBool (b : Bool)
  | vNone
  | vList (xs : List MPValue)
  | vDict (xs : List (String × MPValue))

/-- A Python dict with string keys, in insertion order. -/
abbrev PyDict := List (String × MPValue)

/-- Python `key in dict`. -/
def hasKey (d : PyDict) (k : String) : Bool :=
  d.any (fun kv => kv.1 == k)

/-- Python `dict.get(key, default)`. -/
def pyGetD (d : PyDict) (k : String) (dflt : MPValue) : MPValue :=
  match d.find? (fun kv => kv.1 == k) with
  | some kv => kv.2
  | none => dflt

/-- Python `dict[key] = value`: replace in place when the key exists,
append otherwise. -/
def pySet (d : PyDict) (k : String) (v : MPValue) : PyDict :=
  if hasKey d k then
    d.map (fun kv => if kv.1 == k then (k, v) else kv)
  else
    d ++ [(k, v)]

/-- Python truthiness of the modelled values. -/
def truthy : MPValue → Bool
  | .vStr s => !s.isEmpty
  | .vInt n => n != 0
  | .vFloat q => q != 0
  | .vBool b => b
  | .vNone => false
  | .vList xs => !xs.isEmpty
  | .vDict xs => !xs.isEmpty

mutual

/-- Python `str()` of a value, as used by `_check_compliance` and the
constitutional reviews.  String escaping inside `repr` and the decimal
rendering of binary floats are not reproduced bit for bit; no theorem
below depends on them (every theorem that touches `pyStr` either
quantifies over arbitrary strings or evaluates it on str/int/bool
values, where the rendering below agrees with CPython). -/
def pyStr : MPValue → String
  | .vStr s => "\x27" ++ s ++ "\x27"
  | .vInt n => toString n
  | .vFloat q => toString q.num ++ "/" ++ toString q.den
  | .vBool b => if b then "True" else "False"
  | .vNone => "None"
  | .vList xs => "[" ++ pyStrList xs ++ "]"
  | .vDict xvs => "\x7b" ++ pyStrEntries xvs ++ "\x7d"

/-- Comma-joined `repr`s of the elements of a list value. -/
def pyStrList : List MPValue → String
  | [] => ""
  | [x] => pyStr x
  | x :: y :: rest => pyStr x ++ ", " ++ pyStrList (y :: rest)

/-- Comma-joined `'key': value` renderings of dict entries. -/
def pyStrEntries : List (String × MPValue) → String
  | [] => ""
  | [kv] => "\x27" ++ kv.1 ++ "\x27: " ++ pyStr kv.2
  | kv :: kv2 :: rest =>
    "\x27" ++ kv.1 ++ "\x27: " ++ pyStr kv.2 ++ ", " ++ pyStrEntries (kv2 :: rest)

end

/-- Python `str()` of a dict (the form the darwin reviews scan). -/
def pyStrDict (d : PyDict) : String :=
  pyStr (MPValue.vDict d)

/-! ## neural_message.py: enums and data shapes -/

/-- MessagePriority: priority levels for message routing (QoS). -/
inductive MessagePriority where
  | CRITICAL
  | HIGH
  | NORMAL
  | LOW
  | BATCH
deriving DecidableEq

/-- Numeric value of each priority member, as declared in the enum. -/
def MessagePriority.value : MessagePriority → Nat
  | .CRITICAL => 1
  | .HIGH => 2
  | .NORMAL => 3
  | .LOW => 4
  | .BATCH => 5

/-- `MessagePriority(v)`: the member with value `v`, `none` when no member
matches (Python raises `ValueError` there). -/
def MessagePriority.ofValue : Nat → Option MessagePriority
  | 1 => some .CRITICAL
  | 2 => some .HIGH
  | 3 => some .NORMAL
  | 4 => some .LOW
  | 5 => some .BATCH
  | _ => none

/-- FocusMode: LLM focus modes for dynamic context optimization. -/
inductive FocusMode where
  | RELEVANCE
  | EXTRACTION
  | ANALYSIS
  | SUMMARIZATION
  | REASONING
  | CREATIVE
  | VERIFICATION
  | NAVIGATION
deriving DecidableEq

/-- String value of each focus mode, as declared in the enum (note the
short values of SUMMARIZATION and VERIFICATION in the source). -/
def FocusMode.value : FocusMode → String
  | .RELEVANCE => "relevance"
  | .EXTRACTION => "extraction"
  | .ANALYSIS => "analysis"
  | .SUMMARIZATION => "summarize"
  | .REASONING => "reasoning"
  | .CREATIVE => "creative"
  | .VERIFICATION => "verify"
  | .NAVIGATION => "navigation"

/-- `FocusMode(v)`: the member with string value `v`, `none` when no member
matches. -/
def FocusMode.ofValue (v : String) : Option FocusMode :=
  if v = "relevance" then some .RELEVANCE
  else if v = "extraction" then some .EXTRACTION
  else if v = "analysis" then some .ANALYSIS
  else if v = "summarize" then some .SUMMARIZATION
  else if v = "reasoning" then some .REASONING
  else if v = "creative" then some .CREATIVE
  else if v = "verify" then some .VERIFICATION
  else if v = "navigation" then some .NAVIGATION
  else none

theorem priority_ofValue_value (p : MessagePriority) :
    MessagePriority.ofValue p.value = some p := by
  cases p <;> rfl

theorem focusMode_ofValue_value (m : FocusMode) :
    FocusMode.ofValue m.value = some m := by
  cases m <;> rfl

/-- MessageFocus: defines LLM focus for a message.  `__post_init__`
materializes the list fields, so they are always present here. -/
structure MessageFocus where
  mode : FocusMode
  target_entities : List String
  relevance_threshold : ℚ
  max_tokens : Int
  keywords : List String
  negative_keywords : List String
deriving DecidableEq

/-- The `MessageFocus()` value produced by the defaults and
`__post_init__`. -/
def defaultMessageFocus : MessageFocus :=
  { mode := .EXTRACTION
    target_entities := []
    relevance_threshold := 0.7
    max_tokens := 4096
    keywords := []
    negative_keywords := [] }

/-- EnRouteContext: context refined during message transit.  The source
dataclass declares exactly these data fields (its `compression_ratio`
field is named `compression_amount` here).  It declares no methods beyond
the generated initialization logic. -/
structure EnRouteContext where
  original_size : Int
  current_size : Int
  compression_amount : ℚ
  relevance_score : ℚ
  filtered_elements : List String
  focus_mode : FocusMode
  timestamp : ℚ
  hops : Int
  refinements : List PyDict

/-- The `EnRouteContext()` value produced by the defaults and
`__post_init__` when the clock reads `now`. -/
def defaultEnRouteContext (now : ℚ) : EnRouteContext :=
  { original_size := 0
    current_size := 0
    compression_amount := 0
    relevance_score := 0
    filtered_elements := []
    focus_mode := .EXTRACTION
    timestamp := now
    hops := 0
    refinements := [] }

/-- NeuralMessage: core message structure for the neural communication
bus. -/
structure NeuralMessage where
  id : String
  topic : String
  priority : MessagePriority
  focus : MessageFocus
  payload : MPValue
  context : EnRouteContext
  source : String
  destination : String
  timestamp : ℚ
  ttl_seconds : Int
  requires_ack : Bool
  correlation_id : Option String
  constitutional_compliance : Bool

/-! ## neural_message.py: binary wire codec -/

/-- Wire form of the focus descriptor: the structured record `to_binary`
writes under the short tag `f` (mode is carried as its string value). -/
structure WireFocus where
  mode : String
  target_entities : List String
  relevance_threshold : ℚ
  max_tokens : Int
  keywords : List String
  negative_keywords : List String

/-- Wire form of the context block under the short tag `c`.  `to_binary`
writes exactly these seven entries; the context's compression field and
timestamp are not encoded. -/
structure WireContext where
  os : Int
  cs : Int
  rs : ℚ
  fe : List String
  fm : String
  h : Int
  r : List PyDict

/-- The keyed record `to_binary` feeds to `msgpack.packb`.  msgpack is a
lossless injective encoding of this record, so the record itself stands
for the binary form. -/
structure WireRecord where
  id : String
  t : String
  p : Nat
  f : Option WireFocus
  pl : MPValue
  c : WireContext
  s : String
  d : String
  ts : ℚ
  ttl : Int
  ack : Bool
  corr : Option String
  cc : Bool

/-- `NeuralMessage.to_binary`: serialize to the keyed wire record. -/
def toBinary (m : NeuralMessage) : WireRecord :=
  { id := m.id
    t := m.topic
    p := m.priority.value
    f := some
      { mode := m.focus.mode.value
        target_entities := m.focus.target_entities
        relevance_threshold := m.focus.relevance_threshold
        max_tokens := m.focus.max_tokens
        keywords := m.focus.keywords
        negative_keywords := m.focus.negative_keywords }
    pl := m.payload
    c :=
      { os := m.context.original_size
        cs := m.context.current_size
        rs := m.context.relevance_score
        fe := m.context.filtered_elements
        fm := m.context.focus_mode.value
        h := m.context.hops
        r := m.context.refinements }
    s := m.source
    d := m.destination
    ts := m.timestamp
    ttl := m.ttl_seconds
    ack := m.requires_ack
    corr := m.correlation_id
    cc := m.constitutional_compliance }

/-- `NeuralMessage.from_binary`: deserialize from the wire record.  `now`
models `time.time()` as read by the dataclass `__post_init__` defaulting
(the decoded context carries no timestamp, and a zero message timestamp
is replaced by the clock).  Enum lookups that would raise `ValueError`
in Python yield `none`. -/
def fromBinary (now : ℚ) (w : WireRecord) : Option NeuralMessage := do
  let p ← MessagePriority.ofValue w.p
  let focus ←
    match w.f with
    | some fd => do
      let md ← FocusMode.ofValue fd.mode
      pure
        { mode := md
          target_entities := fd.target_entities
          relevance_threshold := fd.relevance_threshold
          max_tokens := fd.max_tokens
          keywords := fd.keywords
          negative_keywords := fd.negative_keywords : MessageFocus }
    | none => pure defaultMessageFocus
  let fm ← FocusMode.ofValue w.c.fm
  pure
    { id := w.id
      topic := w.t
      priority := p
      focus := focus
      payload := w.pl
      context :=
        { original_size := w.c.os
          current_size := w.c.cs
          compression_amount := 0
          relevance_score := w.c.rs
          filtered_elements := w.c.fe
          focus_mode := fm
          timestamp := now
          hops := w.c.h
          refinements := w.c.r }
      source := w.s
      destination := w.d
      timestamp := if w.ts = 0 then now else w.ts
      ttl_seconds := w.ttl
      requires_ack := w.ack
      correlation_id := w.corr
      constitutional_compliance := w.cc }

/-! ## neural_message.py: MessageBus -/

/-- A handler subscribed on the bus: an identifying label plus its
behavior on a message.  A Python handler either returns (`ok`) or raises
(`error`); effects beyond that are outside the bus's contract. -/
structure Handler where
  hid : String
  run : NeuralMessage → Except String Unit

/-- MessageBus state: topic-keyed subscriber lists and the bounded
message history (`max_history = 1000` at construction). -/
structure MessageBus where
  subscribers : List (String × List Handler)
  history : List NeuralMessage
  max_history : Nat

/-- `self.subscribers.get(topic, [])`. -/
def getSubs (bus : MessageBus) (topic : String) : List Handler :=
  match bus.subscribers.find? (fun kv => kv.1 == topic) with
  | some kv => kv.2
  | none => []

/-- The restricted substring list of `_check_compliance`. -/
def restricted : List String := ["password", "secret", "api_key"]

/-- The scanning loop of `_check_compliance`: the source iterates over
`str(message.payload).lower()` itself, so each `field` is a single
character, tested for membership in `restricted`. -/
def complianceScan : List Char → Bool
  | [] => true
  | c :: rest =>
    if restricted.contains (String.mk [c]) then false else complianceScan rest

/-- `MessageBus._check_compliance`. -/
def checkCompliance (m : NeuralMessage) : Bool :=
  complianceScan (pyLower (pyStr m.payload)).data

/-- Result of a `publish` call: the returned flag, the ordered trace of
handler invocations with each handler's outcome (the `try/except` around
each call logs a failure and moves on), and the updated bus state. -/
structure PublishResult where
  ok : Bool
  trace : List (String × Except String Unit)
  bus : MessageBus

/-- `MessageBus.publish`. -/
def publish (bus : MessageBus) (m : NeuralMessage) : PublishResult :=
  if checkCompliance m = false then
    { ok := false, trace := [], bus := bus }
  else
    let hs := getSubs bus m.topic
    let trace := hs.map (fun h => (h.hid, h.run m))
    let hist := bus.history ++ [m]
    let hist2 := if bus.max_history < hist.length then hist.drop 1 else hist
    { ok := true, trace := trace, bus := { bus with history := hist2 } }

/-! ## context_refiner.py: RelevanceScorer -/

/-- The per-mode weight table built in `RelevanceScorer.__init__`
(keyword-match weight first, semantic weight second). -/
def focus_weights : List (FocusMode × ℚ × ℚ) :=
  [(.RELEVANCE, 0.6, 0.4),
   (.EXTRACTION, 0.7, 0.3),
   (.ANALYSIS, 0.3, 0.7),
   (.SUMMARIZATION, 0.4, 0.6),
   (.NAVIGATION, 0.8, 0.2)]

/-- `self.focus_weights.get(focus_mode, ...)['keyword_match']`: the
keyword-match weight of a mode, `0.5` for unlisted modes. -/
def kwWeight (mode : FocusMode) : ℚ :=
  match focus_weights.find? (fun kv => kv.1 == mode) with
  | some kv => kv.2.1
  | none => 0.5

/-- Per-keyword score computed in the loop body of `score_relevance`
for a keyword (already lowercased) that occurs in the lowercased
content: average of the position score and the capped frequency
score. -/
def keywordComponent (cl : List Char) (clen : Nat) (kwl : List Char) : ℚ :=
  let position := findSub cl kwl
  let position_score := 1 - ((position : ℚ) / (max clen 1 : ℚ))
  let frequency_score := min ((pyCount cl kwl : ℚ) / 5) 1
  (position_score + frequency_score) / 2

/-- The `for keyword in keywords` loop of `score_relevance`: returns the
accumulated `keyword_scores` and `matched` lists, in keyword order. -/
def scoreLoop (cl : List Char) (clen : Nat) : List String → List ℚ × List String
  | [] => ([], [])
  | kw :: rest =>
    let kwl := (pyLower kw).data
    let (ss, ms) := scoreLoop cl clen rest
    if containsSub cl kwl then
      (keywordComponent cl clen kwl :: ss, kw :: ms)
    else
      (ss, ms)

/-- Result record of `RelevanceScorer.score_relevance`. -/
structure ScoreResult where
  score : ℚ
  relevant : Bool
  matching_keywords : List String
  reasoning : String
deriving DecidableEq

/-- `RelevanceScorer.score_relevance` (the method is declared async but
performs no awaits, so it is a pure function of its arguments). -/
def score_relevance (content : String) (keywords : List String)
    (focus_mode : FocusMode) (threshold : ℚ) : ScoreResult :=
  if content.isEmpty || keywords.isEmpty then
    { score := 0.5, relevant := true, matching_keywords := [], reasoning := "no content" }
  else
    let content_lower := (pyLower content).data
    let (keyword_scores, matched) := scoreLoop content_lower content.length keywords
    let avg_score :=
      if keyword_scores.isEmpty then 0 else keyword_scores.sum / (keyword_scores.length : ℚ)
    let final_score := avg_score * kwWeight focus_mode
    { score := min final_score 1
      relevant := decide (threshold ≤ final_score)
      matching_keywords := matched
      reasoning := "Matched " ++ toString matched.length ++ "/" ++ toString keywords.length ++ " keywords" }

/-! ## context_refiner.py: the refine_en_route hop step -/

/-- Python failure values that the embedding surfaces. -/
inductive PyFailure where
  | attributeError (attr : String)
deriving DecidableEq

/-- Methods defined on the `EnRouteContext` dataclass in
`neural_message.py`: the class body declares data fields and the
generated dataclass initialization logic only.  In particular it defines
neither `add_hop` nor `record_refinement`. -/
def enRouteContextMethods : List String := ["__post_init__"]

/-- The hop-tracking step at the top of `ContextRefiner.refine_en_route`:
the call `message.context.add_hop(processor_id)`.  Python resolves the
attribute `add_hop` on the `EnRouteContext` instance; since the class
defines no such method, the call raises `AttributeError` before any
focus-mode dispatch.  (There is no `add_hop` implementation anywhere in
the repository to translate for the success branch, so that branch
returns the context unchanged; it is unreachable.) -/
def refineEnRouteHop (ctx : EnRouteContext) (_processor_id : String) :
    Except PyFailure EnRouteContext :=
  if enRouteContextMethods.contains "add_hop" then
    Except.ok ctx
  else
    Except.error (PyFailure.attributeError "add_hop")

/-! ## darwin.py: constitution and reviews -/

/-- The four required capability markers. -/
def CONSTITUTION_MUST_HAVES : List String :=
  ["permeable_ai", "fastest_protocol", "dna_carried", "refine_en_route"]

/-- The four forbidden markers. -/
def CONSTITUTION_CANNOT_HAVES : List String :=
  ["vendor_lockin", "centralized_dead_man_switch", "black_box_ai", "single_point_of_failure"]

/-- `ConstitutionalReview._calculate_approval_score`: a rejected review
scores `0.0` outright; otherwise deductions are folded over the issue
list (tagged by substring) starting from `1.0`, floored at `0`. -/
def calculateApprovalScore (approved : Bool) (issues : List String) : ℚ :=
  if !approved then 0
  else
    max 0 (issues.foldl
      (fun score issue =>
        if containsSub issue.data "Missing required".data then score - 0.1
        else if containsSub issue.data "Violates constraint".data then score - 0.2
        else if containsSub issue.data "Violates spirit".data then score - 0.15
        else score)
      1)

/-- Result of constitutional mutation review; the approval score is
derived from the constructor arguments. -/
structure ConstitutionalReview where
  approved : Bool
  issues : List String
  approval_score : ℚ
deriving DecidableEq

/-- The `ConstitutionalReview` constructor (timestamp and signature
fields are not modelled; no claim touches them). -/
def ConstitutionalReview.make (approved : Bool) (issues : List String) :
    ConstitutionalReview :=
  { approved := approved
    issues := issues
    approval_score := calculateApprovalScore approved issues }

/-- `Darwin3Enforcer._check_spirit`. -/
def checkSpirit (m : PyDict) : Bool :=
  if truthy (pyGetD m "restrictive" MPValue.vNone) then false
  else
    truthy (pyGetD m "permeable_ai" (MPValue.vBool false))
      || hasKey m "efficiency" || hasKey m "optimization"

/-- The issue list accumulated by `Darwin3Enforcer.review_mutation`:
issue per required marker missing from the mapping's keys, issue per
forbidden marker present among the keys, plus the spirit heuristic. -/
def reviewMutationIssues (mutation : PyDict) : List String :=
  let issuesA := CONSTITUTION_MUST_HAVES.foldl
    (fun acc required =>
      if hasKey mutation required then acc else acc ++ ["Missing required: " ++ required])
    []
  let issuesB := CONSTITUTION_CANNOT_HAVES.foldl
    (fun acc forbidden =>
      if hasKey mutation forbidden then acc ++ ["Violates constraint: " ++ forbidden] else acc)
    issuesA
  if checkSpirit mutation then issuesB
  else issuesB ++ ["Violates spirit of open permeability"]

/-- `Darwin3Enforcer.review_mutation`: approved iff no issues. -/
def review_mutation (mutation : PyDict) : ConstitutionalReview :=
  ConstitutionalReview.make ((reviewMutationIssues mutation).length == 0)
    (reviewMutationIssues mutation)

/-- The issue list accumulated by `DarwinLLM._review_constitution`: each
marker is tested for occurrence as a substring of `str(evolution)` (not
for key membership), and there is no spirit check. -/
def reviewConstitutionIssues (evolution : PyDict) : List String :=
  let s := (pyStrDict evolution).data
  let issuesA := CONSTITUTION_MUST_HAVES.foldl
    (fun acc required =>
      if containsSub s required.data then acc else acc ++ ["Missing required: " ++ required])
    []
  CONSTITUTION_CANNOT_HAVES.foldl
    (fun acc forbidden =>
      if containsSub s forbidden.data then acc ++ ["Violates constraint: " ++ forbidden] else acc)
    issuesA

/-- `DarwinLLM._review_constitution`: approved iff no issues. -/
def reviewConstitution (evolution : PyDict) : ConstitutionalReview :=
  ConstitutionalReview.make ((reviewConstitutionIssues evolution).length == 0)
    (reviewConstitutionIssues evolution)

/-! ## darwin.py: Darwin1Algorithm -/

/-- Darwin1Config with its declared defaults. -/
structure Darwin1Config where
  population_size : Nat
  mutation_rate : ℚ
  crossover_rate : ℚ
  elite_count : Nat
  generations : Nat
  survival_threshold : ℚ
  improvement_threshold : ℚ

/-- The default `Darwin1Config()`. -/
def defaultDarwin1Config : Darwin1Config :=
  { population_size := 20
    mutation_rate := 0.15
    crossover_rate := 0.3
    elite_count := 4
    generations := 10
    survival_threshold := 0.7
    improvement_threshold := 0.05 }

/-- Numeric reading of a dict value as used by the score arithmetic of
`evaluate_mutation` (Python `bool` is an `int`).  The improvement fields
of a candidate are numeric; a non-numeric value there would raise
`TypeError` in Python and is read as `0` here (no claim exercises that
path). -/
def toNum : MPValue → ℚ
  | .vInt n => (n : ℚ)
  | .vFloat q => q
  | .vBool b => if b then 1 else 0
  | _ => 0

/-- `Darwin1Algorithm._check_constitution`: start from `1.0`, lose `0.05`
per missing required marker, drop to `0` on any forbidden marker, floored
at `0`. -/
def checkConstitution (mutation : PyDict) : ℚ :=
  let s := CONSTITUTION_MUST_HAVES.foldl
    (fun score required => if hasKey mutation required then score else score - 0.05)
    1
  let s2 := if CONSTITUTION_CANNOT_HAVES.any (fun f => hasKey mutation f) then 0 else s
  max 0 s2

/-- `Darwin1Algorithm.evaluate_mutation`. -/
def evaluate_mutation (mutation : PyDict) : ℚ :=
  let latency_improvement := toNum (pyGetD mutation "latency_improvement" (.vInt 0))
  let relevance_improvement := toNum (pyGetD mutation "relevance_improvement" (.vInt 0))
  let efficiency_improvement := toNum (pyGetD mutation "efficiency_improvement" (.vInt 0))
  (1 - latency_improvement) * 0.30
    + relevance_improvement * 0.40
    + efficiency_improvement * 0.20
    + checkConstitution mutation * 0.10

/-- Descending order on evaluation scores: `sort(key=..., reverse=True)`
is a stable sort, modelled by Mathlib's stable insertion sort under this
relation. -/
def scoreGE (a b : ℚ × PyDict) : Prop := b.1 ≤ a.1

instance : DecidableRel scoreGE := fun a b => inferInstanceAs (Decidable (b.1 ≤ a.1))

/-- The survivor selection inside `Darwin1Algorithm.evolve`: rank the
scored population descending (stable) and keep the top
`max(2, int(len(evaluated) * survival_threshold))` candidates.  Python's
`int()` truncates toward zero; under the clamp to a minimum of `2` this
agrees with the floor for every threshold. -/
def evolveSurvivors (cfg : Darwin1Config) (population : List PyDict) : List PyDict :=
  let evaluated := population.map (fun s => (evaluate_mutation s, s))
  let sorted := List.insertionSort scoreGE evaluated
  let survivor_count :=
    max 2 (Int.toNat (Rat.floor ((population.length : ℚ) * cfg.survival_threshold)))
  (sorted.take survivor_count).map Prod.snd

/-- `Darwin1Algorithm._hash_solution` produces a short keyed digest of the
candidate's canonical (key-sorted) serialization.  The digest itself is
modelled by the canonical serialization (an injective stand-in for
`blake2b(...).hexdigest()`); no claim depends on the digest bits. -/
def hashSolution (solution : PyDict) : String :=
  pyStrDict (List.insertionSort (fun a b : String × MPValue => decide (a.1 ≤ b.1) = true) solution)

/-- Python `s[:n]` on strings. -/
def strTake (n : Nat) (s : String) : String :=
  String.mk (s.data.take n)

/-- One batch of random draws consumed while producing a single child in
the `evolve` fill loop: the crossover coin, the two `random.choice`
indices, the per-key mutation coins and perturbation draws, and the
clock value stamped on a mutated child. -/
structure EvolveDraw where
  coin : ℚ
  pickA : Nat
  pickB : Nat
  mutCoin : String → ℚ
  intShift : String → Int
  floatScale : String → ℚ
  ts : ℚ

/-- `random.choice(survivors)` with an oracle-chosen index (the source
only calls it on a nonempty survivor list; the empty dict stands in for
the unreachable empty case). -/
def pickFrom (l : List PyDict) (i : Nat) : PyDict :=
  l.getD (i % l.length) []

/-- `Darwin1Algorithm.create_mutation`: copy the parent, perturb each
numeric field that wins its mutation coin (`int` fields shift, `float`
fields scale; Python `bool` is an `int` and shifts to an `int`), then
stamp the mutation timestamp and the parent's digest. -/
def create_mutation (cfg : Darwin1Config) (draw : EvolveDraw) (parent : PyDict) : PyDict :=
  let mutated := parent.map (fun kv =>
    match kv.2 with
    | .vInt n =>
      if draw.mutCoin kv.1 < cfg.mutation_rate then (kv.1, MPValue.vInt (n + draw.intShift kv.1)) else kv
    | .vFloat q =>
      if draw.mutCoin kv.1 < cfg.mutation_rate then (kv.1, MPValue.vFloat (q * draw.floatScale kv.1)) else kv
    | .vBool b =>
      if draw.mutCoin kv.1 < cfg.mutation_rate then
        (kv.1, MPValue.vInt ((if b then 1 else 0) + draw.intShift kv.1))
      else kv
    | _ => kv)
  pySet (pySet mutated "mutation_timestamp" (.vFloat draw.ts))
    "parent_hash" (.vStr (hashSolution parent))

/-- `Darwin1Algorithm._crossover`: the child takes the first
`len(keys1)/2` entries of parent 1 and the entries of parent 2 from that
position on (assignments into a fresh dict, so a repeated key is
overwritten), then is tagged with crossover provenance and both parents'
truncated digests. -/
def crossover (p1 p2 : PyDict) : PyDict :=
  let split := p1.length / 2
  let childA := (p1.take split).foldl (fun d kv => pySet d kv.1 kv.2) []
  let childB := (p2.drop split).foldl (fun d kv => pySet d kv.1 kv.2) childA
  pySet (pySet childB "crossover" (.vBool true))
    "parents" (.vList [.vStr (strTake 8 (hashSolution p1)), .vStr (strTake 8 (hashSolution p2))])

/-- The body of one iteration of the `while len(next_gen) < population_size`
loop: with probability `crossover_rate` cross two random survivors,
otherwise mutate one random survivor. -/
def mkChild (cfg : Darwin1Config) (draw : EvolveDraw) (survivors : List PyDict) : PyDict :=
  if draw.coin < cfg.crossover_rate then
    crossover (pickFrom survivors draw.pickA) (pickFrom survivors draw.pickB)
  else
    create_mutation cfg draw (pickFrom survivors draw.pickA)

/-- The fill loop of `evolve`: append children until the next generation
reaches `population_size`.  `oracle k` supplies the random draws of the
`k`-th appended child. -/
def fillLoop (cfg : Darwin1Config) (oracle : Nat → EvolveDraw)
    (survivors : List PyDict) (k : Nat) (next_gen : List PyDict) : List PyDict :=
  if next_gen.length < cfg.population_size then
    fillLoop cfg oracle survivors (k + 1) (next_gen ++ [mkChild cfg (oracle k) survivors])
  else
    next_gen
termination_by cfg.population_size - next_gen.length
decreasing_by
  simp only [List.length_append, List.length_cons, List.length_nil]
  omega

/-- `Darwin1Algorithm.evolve`: a population smaller than 2 is returned
unchanged; otherwise rank descending, keep survivors and elites, and
fill the next generation from the elites up to `population_size`.  (The
updates to `self.metrics` do not affect the returned population and are
not modelled.) -/
def evolve (cfg : Darwin1Config) (oracle : Nat → EvolveDraw)
    (population : List PyDict) : List PyDict :=
  if population.length < 2 then population
  else
    let evaluated := population.map (fun s => (evaluate_mutation s, s))
    let sorted := List.insertionSort scoreGE evaluated
    let survivors := evolveSurvivors cfg population
    let elites := (sorted.take cfg.elite_count).map Prod.snd
    fillLoop cfg oracle survivors 0 elites

/-! ## Theorems: the compliance gate (claim C1) -/

/-- The scanning loop of `_check_compliance` accepts every string: each
scanned `field` is a single character, and every restricted word has
more than one character, so the membership test never fires. -/
theorem complianceScan_true (l : List Char) : complianceScan l = true := by
  induction l with
  | nil => rfl
  | cons c rest ih =>
    have hno : restricted.contains (String.mk [c]) = false := by
      have h : ∀ (w : String), w.data.length ≠ 1 → (String.mk [c] == w) = false := by
        intro w hw
        apply beq_eq_false_iff_ne.mpr
        intro he
        apply hw
        have h2 := congrArg String.data he
        simp only at h2
        rw [← h2]
        rfl
      simp only [restricted, List.contains, List.elem_cons, List.elem_nil,
        h "password" (by decide), h "secret" (by decide), h "api_key" (by decide)]
    rw [complianceScan, hno]
    simpa using ih

/-- `_check_compliance` returns `True` for every message, whatever the
payload renders to. -/
theorem checkCompliance_true (m : NeuralMessage) : checkCompliance m = true :=
  complianceScan_true _

/-- A payload that carries a restricted word, for exercising the gate. -/
def passwordMsg : NeuralMessage :=
  { id := "m1"
    topic := "alerts"
    priority := .NORMAL
    focus := defaultMessageFocus
    payload := .vDict [("password", .vStr "hunter2")]
    context := defaultEnRouteContext 1
    source := "dashboard"
    destination := "scraper-vm"
    timestamp := 1
    ttl_seconds := 300
    requires_ack := false
    correlation_id := none
    constitutional_compliance := true }

/-- A bus with one subscriber on the topic of `passwordMsg`. -/
def gateBus : MessageBus :=
  { subscribers := [("alerts", [{ hid := "audit", run := fun _ => Except.ok () }])]
    history := []
    max_history := 1000 }

/-- Claim C1: the lowercase string form of `passwordMsg`'s payload does
contain the restricted substring `password`, yet `publish` returns
`True`, runs the subscribed handler, and records the envelope — the gate
iterates over the characters of `str(payload)` and compares each single
character against the multi-character restricted words, so it never
rejects.  This contradicts the claimed rejection behavior. -/
theorem publish_restricted_payload_accepted :
    containsSub (pyLower (pyStr passwordMsg.payload)).data "password".data = true ∧
    (publish gateBus passwordMsg).ok = true ∧
    (publish gateBus passwordMsg).trace = [("audit", Except.ok ())] ∧
    (publish gateBus passwordMsg).bus.history = [passwordMsg] := by
  refine ⟨by decide, rfl, rfl, rfl⟩

/-! ## Theorems: the refinement hop step (claim C2) -/

/-- Claim C2: for every context and processor id, the hop-tracking step
of `refine_en_route` raises `AttributeError` — the `EnRouteContext`
dataclass defines no `add_hop` method — instead of incrementing the hop
counter and recording the processor id. -/
theorem refine_en_route_hop_raises (ctx : EnRouteContext) (pid : String) :
    refineEnRouteHop ctx pid = Except.error (PyFailure.attributeError "add_hop") := rfl

/-! ## Theorems: approval score (claim C4) -/

/-- A list has length zero exactly when it is empty (boolean form). -/
theorem length_beq_zero (l : List String) : (l.length == 0) = l.isEmpty := by
  cases l <;> rfl

/-- Evaluating `ConstitutionalReview.make` on the `approved` flag that the
reviews pass (`len(issues) == 0`): the derived score is `1` for an empty
issue list and `0` otherwise, because `_calculate_approval_score` returns
`0.0` outright whenever `approved` is false. -/
theorem make_score (issues : List String) :
    (ConstitutionalReview.make (issues.length == 0) issues).approved = issues.isEmpty ∧
    (ConstitutionalReview.make (issues.length == 0) issues).approval_score =
      (if issues.isEmpty then 1 else 0) := by
  cases issues with
  | nil =>
    refine ⟨rfl, ?_⟩
    show calculateApprovalScore true [] = 1
    rw [calculateApprovalScore]
    norm_num
  | cons a t => exact ⟨rfl, rfl⟩

set_option maxRecDepth 8192 in
/-- Claim C4 counterexample: on the empty candidate mapping the review
collects four missing-required issues and one spirit issue, so the
claimed formula gives `1 − 0.1·4 − 0.15·1 = 0.45`, but the code scores
the rejected review `0`. -/
theorem review_mutation_score_counterexample :
    (review_mutation []).approved = false ∧
    (review_mutation []).issues.countP
      (fun i => containsSub i.data "Missing required".data) = 4 ∧
    (review_mutation []).issues.countP
      (fun i => containsSub i.data "Violates constraint".data) = 0 ∧
    (review_mutation []).issues.countP
      (fun i => containsSub i.data "Violates spirit".data) = 1 ∧
    (review_mutation []).approval_score = 0 ∧
    ¬ ((review_mutation []).approval_score =
        max 0 (1 - 0.1 * 4 - 0.2 * 0 - 0.15 * 1)) := by
  refine ⟨rfl, by decide, by decide, by decide, by decide, ?_⟩
  intro h
  rw [show (review_mutation []).approval_score = 0 from by decide] at h
  norm_num at h

/-- Claim C4 (amended): a review produced by `review_mutation` is
approved exactly when its issue list is empty, and its approval score is
`0` whenever it is not approved and `1` (the deduction formula over the
then-empty issue list) when it is: the per-issue deductions only apply
to approved reviews. -/
theorem review_mutation_score_amended (m : PyDict) :
    (review_mutation m).approved = (review_mutation m).issues.isEmpty ∧
    (review_mutation m).approval_score =
      (if (review_mutation m).issues.isEmpty then 1 else 0) := by
  have h := make_score (reviewMutationIssues m)
  rw [review_mutation]
  have hi : (ConstitutionalReview.make ((reviewMutationIssues m).length == 0)
      (reviewMutationIssues m)).issues = reviewMutationIssues m := rfl
  rw [hi]
  exact h

/-! ## Theorems: Tier-2 vs Tier-3 review (claim C5) -/

/-- Claim C5 counterexample: on the empty candidate mapping the Tier-3
review adds the spirit-violation issue, which Tier-2's review never
raises, so the two issue lists differ (4 vs 5 issues). -/
theorem tier2_review_differs_counterexample :
    (reviewConstitution []).issues.length = 4 ∧
    (review_mutation []).issues.length = 5 ∧
    ¬ ((reviewConstitution []).issues = (review_mutation []).issues) := by
  refine ⟨by decide, by decide, by decide⟩

/-- Claim C5 (amended): Tier-2's review tests each marker for occurrence
as a substring of the candidate's string form, while Tier-3's
`review_mutation` tests key membership and adds a spirit check.  The two
reviews produce the same approved flag and the same issue list whenever
the substring test agrees with key membership on all eight markers and
the candidate passes the spirit check; in general (for example on the
empty mapping) they differ. -/
theorem tier2_review_agrees (m : PyDict)
    (hm : ∀ w ∈ CONSTITUTION_MUST_HAVES ++ CONSTITUTION_CANNOT_HAVES,
      containsSub (pyStrDict m).data w.data = hasKey m w)
    (hs : checkSpirit m = true) :
    (reviewConstitution m).approved = (review_mutation m).approved ∧
    (reviewConstitution m).issues = (review_mutation m).issues := by
  have h1 : reviewConstitutionIssues m = reviewMutationIssues m := by
    have e1 := hm "permeable_ai" (by decide)
    have e2 := hm "fastest_protocol" (by decide)
    have e3 := hm "dna_carried" (by decide)
    have e4 := hm "refine_en_route" (by decide)
    have e5 := hm "vendor_lockin" (by decide)
    have e6 := hm "centralized_dead_man_switch" (by decide)
    have e7 := hm "black_box_ai" (by decide)
    have e8 := hm "single_point_of_failure" (by decide)
    simp only [reviewConstitutionIssues, reviewMutationIssues, CONSTITUTION_MUST_HAVES,
      CONSTITUTION_CANNOT_HAVES, List.foldl, hs, e1, e2, e3, e4, e5, e6, e7, e8, if_true]
  constructor
  · simp only [reviewConstitution, review_mutation, h1]
  · simp only [reviewConstitution, review_mutation, h1]

/-- A candidate mapping that declares all four required markers as keys,
making the substring test and the key test coincide. -/
def constitutionalDemo : PyDict :=
  [("permeable_ai", .vInt 1), ("fastest_protocol", .vInt 1),
   ("dna_carried", .vInt 1), ("refine_en_route", .vInt 1)]

set_option maxRecDepth 32768 in
/-- Witness for the amended claim C5 at a concrete candidate. -/
theorem tier2_review_agrees_witness :
    (reviewConstitution constitutionalDemo).approved = (review_mutation constitutionalDemo).approved ∧
    (reviewConstitution constitutionalDemo).issues = (review_mutation constitutionalDemo).issues :=
  tier2_review_agrees constitutionalDemo (by decide) (by decide)

/-! ## Theorems: survivor selection (claim C6) -/

/-- Descending order on candidates by their evaluation score. -/
def evalGE (a b : PyDict) : Prop := evaluate_mutation b ≤ evaluate_mutation a

instance : DecidableRel evalGE :=
  fun a b => inferInstanceAs (Decidable (evaluate_mutation b ≤ evaluate_mutation a))

instance : IsTotal PyDict evalGE :=
  ⟨fun a b => le_total (evaluate_mutation b) (evaluate_mutation a)⟩

instance : IsTrans PyDict evalGE :=
  ⟨fun _ _ _ hab hbc => le_trans hbc hab⟩

/-- Inserting a scored pair into a mapped list is mapping the insertion:
sorting `(score, candidate)` pairs by score agrees with sorting the
candidates by their evaluation. -/
theorem orderedInsert_map_pair (a : PyDict) (l : List PyDict) :
    List.orderedInsert scoreGE (evaluate_mutation a, a)
        (l.map (fun s => (evaluate_mutation s, s))) =
      (List.orderedInsert evalGE a l).map (fun s => (evaluate_mutation s, s)) := by
  induction l with
  | nil => rfl
  | cons b t ih =>
    simp only [List.map_cons, List.orderedInsert]
    by_cases h : scoreGE (evaluate_mutation a, a) (evaluate_mutation b, b)
    · rw [if_pos h, if_pos (show evalGE a b from h), List.map_cons, List.map_cons]
    · rw [if_neg h, if_neg (show ¬ evalGE a b from h), List.map_cons, ih]

/-- Stable sorting of the scored pairs by score is the mapped stable sort
of the candidates by evaluation. -/
theorem insertionSort_map_pair (l : List PyDict) :
    List.insertionSort scoreGE (l.map (fun s => (evaluate_mutation s, s))) =
      (List.insertionSort evalGE l).map (fun s => (evaluate_mutation s, s)) := by
  induction l with
  | nil => rfl
  | cons a t ih =>
    simp only [List.map_cons, List.insertionSort, ih, orderedInsert_map_pair]

/-- Claim C6 (amended): for a population of at least two candidates the
survivors are the top `max(2, floor(len·survival_threshold))` candidates
of the population ranked descending (stably) by `evaluate_mutation` —
the source truncates with `int(...)`, the floor, not the ceiling the
spec states — and the ranking really is descending. -/
theorem evolve_survivors_take_floor (cfg : Darwin1Config) (population : List PyDict)
    (_hpop : 2 ≤ population.length) :
    evolveSurvivors cfg population =
      (List.insertionSort evalGE population).take
        (max 2 (Int.toNat (Rat.floor ((population.length : ℚ) * cfg.survival_threshold)))) ∧
    List.Sorted evalGE (List.insertionSort evalGE population) := by
  constructor
  · rw [evolveSurvivors, insertionSort_map_pair, ← List.map_take, List.map_map]
    have : (Prod.snd ∘ fun s : PyDict => (evaluate_mutation s, s)) = id := rfl
    rw [this, List.map_id]
  · exact List.sorted_insertionSort evalGE population

/-- Three candidates with pairwise distinct evaluation scores. -/
def survivorDemoPop : List PyDict :=
  [[("relevance_improvement", .vFloat 0.9)],
   [("relevance_improvement", .vFloat 0.5)],
   [("relevance_improvement", .vFloat 0.1)]]

/-- Claim C6 counterexample: with the default survival threshold `0.7`
and a population of 3, the code keeps `max(2, int(3 · 0.7)) = 2`
survivors, while the claimed `max(2, ceil(3 · 0.7))` would keep 3. -/
theorem evolve_survivors_ceil_counterexample :
    (evolveSurvivors defaultDarwin1Config survivorDemoPop).length = 2 ∧
    max 2 (Int.toNat ⌈((survivorDemoPop.length : ℚ) *
      defaultDarwin1Config.survival_threshold)⌉) = 3 := by
  have harg : ((survivorDemoPop.length : ℚ) * defaultDarwin1Config.survival_threshold) = 21/10 := by
    norm_num [survivorDemoPop, defaultDarwin1Config]
  constructor
  · have h2 : Rat.floor ((survivorDemoPop.length : ℚ) *
        defaultDarwin1Config.survival_threshold) = 2 := by
      show (⌊((survivorDemoPop.length : ℚ) * defaultDarwin1Config.survival_threshold)⌋ : ℤ) = 2
      rw [harg, Int.floor_eq_iff]
      norm_num
    simp only [evolveSurvivors, h2, List.length_map, List.length_take,
      List.length_insertionSort]
    decide
  · have h3 : ⌈((survivorDemoPop.length : ℚ) * defaultDarwin1Config.survival_threshold)⌉ = 3 := by
      rw [harg, Int.ceil_eq_iff]
      norm_num
    rw [h3]
    rfl

set_option maxRecDepth 32768 in
/-- Witness for the amended claim C6 at the same concrete population. -/
theorem evolve_survivors_take_floor_witness :
    evolveSurvivors defaultDarwin1Config survivorDemoPop =
      (List.insertionSort evalGE survivorDemoPop).take
        (max 2 (Int.toNat (Rat.floor ((survivorDemoPop.length : ℚ) *
          defaultDarwin1Config.survival_threshold)))) ∧
    List.Sorted evalGE (List.insertionSort evalGE survivorDemoPop) :=
  evolve_survivors_take_floor defaultDarwin1Config survivorDemoPop (by norm_num [survivorDemoPop])

/-! ## Theorems: next-generation size (claim C7) -/

/-- The fill loop grows its accumulator one child per iteration until the
target population size is reached: the result has length
`max population_size (length of the starting accumulator)`. -/
theorem fillLoop_length (cfg : Darwin1Config) (oracle : Nat → EvolveDraw)
    (survivors : List PyDict) :
    ∀ (fuel k : Nat) (acc : List PyDict), cfg.population_size - acc.length = fuel →
      (fillLoop cfg oracle survivors k acc).length = max cfg.population_size acc.length := by
  intro fuel
  induction fuel with
  | zero =>
    intro k acc h
    rw [fillLoop]
    have hge : ¬ acc.length < cfg.population_size := by omega
    rw [if_neg hge]
    omega
  | succ n ih =>
    intro k acc h
    rw [fillLoop]
    by_cases hlt : acc.length < cfg.population_size
    · rw [if_pos hlt]
      rw [ih (k + 1) (acc ++ [mkChild cfg (oracle k) survivors]) (by simp; omega)]
      simp
      omega
    · rw [if_neg hlt]
      omega

/-- Claim C7 (amended): for any randomness oracle, a population of fewer
than 2 candidates is returned unchanged, and otherwise `evolve` returns
exactly `max(population_size, min(elite_count, len(population)))`
candidates — which is exactly `population_size` whenever
`elite_count ≤ population_size`. -/
theorem evolve_length_characterization (cfg : Darwin1Config)
    (oracle : Nat → EvolveDraw) (population : List PyDict) :
    (evolve cfg oracle population).length =
      if population.length < 2 then population.length
      else max cfg.population_size (min cfg.elite_count population.length) := by
  by_cases h : population.length < 2
  · rw [evolve, if_pos h, if_pos h]
  · rw [evolve, if_neg h, if_neg h]
    rw [fillLoop_length cfg oracle _ _ 0 _ rfl]
    simp only [List.length_map, List.length_take, List.length_insertionSort]

/-- A constant stream of random draws. -/
def nullDraw : EvolveDraw :=
  { coin := 0, pickA := 0, pickB := 0, mutCoin := fun _ => 1,
    intShift := fun _ => 0, floatScale := fun _ => 1, ts := 0 }

/-- Claim C7 counterexample: the empty population is returned unchanged
(0 candidates), not grown to the configured population size of 20. -/
theorem evolve_small_population_counterexample :
    evolve defaultDarwin1Config (fun _ => nullDraw) [] = [] ∧
    defaultDarwin1Config.population_size = 20 :=
  ⟨rfl, rfl⟩

/-! ## Theorems: wire round trip (claim C3) -/

/-- Claim C3: decoding an encoded envelope succeeds and reproduces its
id, topic, priority, payload, all focus-descriptor fields, and the
context's hop count, relevance score and refinement list exactly,
whatever the decoder's clock reads. -/
theorem from_binary_to_binary (m : NeuralMessage) (now : ℚ) :
    ∃ m2 : NeuralMessage,
      fromBinary now (toBinary m) = some m2 ∧
      m2.id = m.id ∧ m2.topic = m.topic ∧ m2.priority = m.priority ∧
      m2.payload = m.payload ∧ m2.focus = m.focus ∧
      m2.context.hops = m.context.hops ∧
      m2.context.relevance_score = m.context.relevance_score ∧
      m2.context.refinements = m.context.refinements := by
  have h : fromBinary now (toBinary m) = some
      { id := m.id
        topic := m.topic
        priority := m.priority
        focus := m.focus
        payload := m.payload
        context :=
          { original_size := m.context.original_size
            current_size := m.context.current_size
            compression_amount := 0
            relevance_score := m.context.relevance_score
            filtered_elements := m.context.filtered_elements
            focus_mode := m.context.focus_mode
            timestamp := now
            hops := m.context.hops
            refinements := m.context.refinements }
        source := m.source
        destination := m.destination
        timestamp := if m.timestamp = 0 then now else m.timestamp
        ttl_seconds := m.ttl_seconds
        requires_ack := m.requires_ack
        correlation_id := m.correlation_id
        constitutional_compliance := m.constitutional_compliance } := by
    simp only [fromBinary, toBinary, priority_ofValue_value, focusMode_ofValue_value,
      Option.bind_eq_bind, Option.some_bind]
    rfl
  exact ⟨_, h, rfl, rfl, rfl, rfl, rfl, rfl, rfl, rfl⟩

/-! ## Theorems: relevance scoring (claims C8 and C10) -/

/-- Modelled from the spec: the raw relevance score over the matched
keywords — per-keyword average of `1 − firstIndex/contentLength` and
`min(occurrenceCount/5, 1)`, averaged across matched keywords (`0` when
none matched). -/
def specRelevanceRaw (content : String) (keywords : List String) : ℚ :=
  let cl := (pyLower content).data
  let matched := keywords.filter (fun kw => containsSub cl (pyLower kw).data)
  if matched.isEmpty then 0
  else
    (matched.map (fun kw =>
      ((1 - (findSub cl (pyLower kw).data : ℚ) / (content.length : ℚ))
        + min ((pyCount cl (pyLower kw).data : ℚ) / 5) 1) / 2)).sum / (matched.length : ℚ)

/-- The scoring loop accumulates exactly the per-keyword components of
the matched keywords, in keyword order. -/
theorem scoreLoop_eq (cl : List Char) (clen : Nat) (kws : List String) :
    scoreLoop cl clen kws =
      ((kws.filter (fun kw => containsSub cl (pyLower kw).data)).map
        (fun kw => keywordComponent cl clen (pyLower kw).data),
       kws.filter (fun kw => containsSub cl (pyLower kw).data)) := by
  induction kws with
  | nil => rfl
  | cons kw rest ih =>
    rw [scoreLoop, ih]
    by_cases h : containsSub cl (pyLower kw).data
    · simp [h, List.filter_cons]
    · simp [h, List.filter_cons]

/-- A nonempty string has positive character length. -/
theorem length_pos_of_ne_empty {s : String} (h : s ≠ "") : 0 < s.length := by
  rcases s with ⟨data⟩
  cases data with
  | nil => exact absurd (by rfl) h
  | cons a t => simp [String.length]

/-- Each per-keyword component of a matched keyword is at most `1`. -/
theorem keywordComponent_le_one {cl kwl : List Char} {clen : Nat}
    (h : containsSub cl kwl = true) :
    keywordComponent cl clen kwl ≤ 1 := by
  rw [keywordComponent]
  have h0 : (0 : ℚ) ≤ ((findSub cl kwl : Int) : ℚ) := by
    exact_mod_cast findSub_nonneg cl kwl h
  have hn0 : (0 : ℚ) < max (clen : ℚ) 1 :=
    lt_of_lt_of_le zero_lt_one (le_max_right _ _)
  have hdiv : 0 ≤ ((findSub cl kwl : Int) : ℚ) / max (clen : ℚ) 1 :=
    div_nonneg h0 (le_of_lt hn0)
  have hmin : min ((pyCount cl kwl : ℚ) / 5) 1 ≤ 1 := min_le_right _ _
  linarith

/-- A list of rationals bounded by `1` sums to at most its length. -/
theorem list_sum_le_length (l : List ℚ) (h : ∀ x ∈ l, x ≤ 1) :
    l.sum ≤ (l.length : ℚ) := by
  induction l with
  | nil => simp
  | cons a t ih =>
    have ha := h a (List.mem_cons_self a t)
    have ht := ih (fun x hx => h x (List.mem_cons_of_mem a hx))
    simp only [List.sum_cons, List.length_cons]
    push_cast
    linarith

/-- The spec-side raw score never exceeds `1`. -/
theorem specRelevanceRaw_le_one (content : String) (keywords : List String)
    (hc : content ≠ "") :
    specRelevanceRaw content keywords ≤ 1 := by
  rw [specRelevanceRaw]
  set cl := (pyLower content).data with hcl
  set matched := keywords.filter (fun kw => containsSub cl (pyLower kw).data) with hm
  set f := fun kw : String =>
    ((1 - (findSub cl (pyLower kw).data : ℚ) / (content.length : ℚ))
      + min ((pyCount cl (pyLower kw).data : ℚ) / 5) 1) / 2 with hf
  by_cases he : matched.isEmpty
  · simp [he]
  · simp only [he, if_false, Bool.false_eq_true]
    have hne : matched ≠ [] := fun hnil => by simp [hnil] at he
    have hlenq : (0 : ℚ) < (matched.length : ℚ) := by
      exact_mod_cast List.length_pos.mpr hne
    rw [div_le_one hlenq]
    have hb : ∀ x ∈ matched.map f, x ≤ 1 := by
      intro x hx
      rw [List.mem_map] at hx
      obtain ⟨kw, hkw, rfl⟩ := hx
      have hocc : containsSub cl (pyLower kw).data = true := by
        have := List.of_mem_filter hkw
        simpa using this
      have h0 : (0 : ℚ) ≤ ((findSub cl (pyLower kw).data : Int) : ℚ) := by
        exact_mod_cast findSub_nonneg cl (pyLower kw).data hocc
      have hn0 : (0 : ℚ) < ((content.length : Nat) : ℚ) := by
        exact_mod_cast length_pos_of_ne_empty hc
      have hdiv : 0 ≤ ((findSub cl (pyLower kw).data : Int) : ℚ) / (content.length : ℚ) :=
        div_nonneg h0 (le_of_lt hn0)
      have hmin : min ((pyCount cl (pyLower kw).data : ℚ) / 5) 1 ≤ 1 := min_le_right _ _
      rw [hf]
      linarith
    have hs := list_sum_le_length (matched.map f) hb
    rwa [List.length_map] at hs

/-- Closed form of the weight lookup, one value per mode. -/
theorem kwWeight_eq (mode : FocusMode) :
    kwWeight mode =
      (match mode with
        | .RELEVANCE => 0.6
        | .EXTRACTION => 0.7
        | .ANALYSIS => 0.3
        | .SUMMARIZATION => 0.4
        | .NAVIGATION => 0.8
        | _ => 0.5) := by
  cases mode <;> rfl

/-- The keyword-match weight of every mode is nonnegative. -/
theorem kwWeight_nonneg (mode : FocusMode) : 0 ≤ kwWeight mode := by
  cases mode <;> · simp only [kwWeight_eq]; norm_num

/-- No mode weighs keyword matches above `0.8`. -/
theorem kwWeight_le (mode : FocusMode) : kwWeight mode ≤ 4/5 := by
  cases mode <;> · simp only [kwWeight_eq]; norm_num

/-- The weight used in RELEVANCE mode. -/
theorem kwWeight_relevance : kwWeight FocusMode.RELEVANCE = 3/5 := by
  simp only [kwWeight_eq]
  norm_num

/-- Mapping preserves emptiness. -/
theorem isEmpty_map {α β : Type} (f : α → β) (l : List α) :
    (l.map f).isEmpty = l.isEmpty := by
  cases l <;> rfl

/-- On nonempty content and keywords, `score_relevance` computes the
spec-side raw score times the mode weight (the loop-and-accumulator form
equals the filter-and-map form), decides relevance against the uncapped
final score, and returns the matched keywords in order. -/
theorem score_relevance_closed_form (content : String) (keywords : List String)
    (mode : FocusMode) (threshold : ℚ) (hc : content ≠ "") (hk : keywords ≠ []) :
    score_relevance content keywords mode threshold =
      { score := min (specRelevanceRaw content keywords * kwWeight mode) 1
        relevant := decide (threshold ≤ specRelevanceRaw content keywords * kwWeight mode)
        matching_keywords :=
          keywords.filter (fun kw => containsSub (pyLower content).data (pyLower kw).data)
        reasoning := "Matched " ++
          toString (keywords.filter
            (fun kw => containsSub (pyLower content).data (pyLower kw).data)).length ++
          "/" ++ toString keywords.length ++ " keywords" } := by
  have hcb : content.isEmpty = false := by
    rw [Bool.eq_false_iff]
    intro h
    exact hc ((String.isEmpty_iff content).mp h)
  have hkb : keywords.isEmpty = false := by
    rw [Bool.eq_false_iff]
    intro h
    cases keywords with
    | nil => exact hk rfl
    | cons a t => simp [List.isEmpty] at h
  have hlen1 : (1 : ℚ) ≤ (content.length : ℚ) := by
    exact_mod_cast length_pos_of_ne_empty hc
  have hfun : (fun kw : String =>
      keywordComponent (pyLower content).data content.length (pyLower kw).data) =
      (fun kw : String =>
        ((1 - (findSub (pyLower content).data (pyLower kw).data : ℚ) / (content.length : ℚ))
          + min ((pyCount (pyLower content).data (pyLower kw).data : ℚ) / 5) 1) / 2) := by
    funext kw
    rw [keywordComponent, max_eq_left hlen1]
  rw [score_relevance]
  rw [hcb, hkb]
  simp only [Bool.or_self, Bool.false_eq_true, if_false]
  rw [scoreLoop_eq]
  simp only [specRelevanceRaw, isEmpty_map, List.length_map, hfun]

/-- Claim C8: `score_relevance` returns the neutral result on empty
content or keywords; otherwise it matches keywords case-insensitively,
scores each matched keyword as the average of its position score and
capped frequency score, multiplies the mean component by the mode's
keyword-match weight, and is relevant exactly when that final score
reaches the threshold. -/
theorem score_relevance_spec (content : String) (keywords : List String)
    (mode : FocusMode) (threshold : ℚ) :
    ((content = "" ∨ keywords = []) →
      score_relevance content keywords mode threshold =
        { score := 0.5, relevant := true, matching_keywords := [], reasoning := "no content" }) ∧
    (content ≠ "" → keywords ≠ [] →
      (score_relevance content keywords mode threshold).matching_keywords =
        keywords.filter (fun kw => containsSub (pyLower content).data (pyLower kw).data) ∧
      (score_relevance content keywords mode threshold).score =
        specRelevanceRaw content keywords * kwWeight mode ∧
      ((score_relevance content keywords mode threshold).relevant = true ↔
        threshold ≤ (score_relevance content keywords mode threshold).score)) := by
  constructor
  · intro h
    rw [score_relevance]
    rcases h with h | h
    · rw [h]
      rfl
    · subst h
      simp
  · intro hc hk
    have hcf := score_relevance_closed_form content keywords mode threshold hc hk
    have hmin : specRelevanceRaw content keywords * kwWeight mode ≤ 1 := by
      have h1 : specRelevanceRaw content keywords * kwWeight mode ≤ kwWeight mode :=
        mul_le_of_le_one_left (kwWeight_nonneg mode) (specRelevanceRaw_le_one content keywords hc)
      have h2 := kwWeight_le mode
      linarith
    have hscore : (score_relevance content keywords mode threshold).score =
        specRelevanceRaw content keywords * kwWeight mode := by
      rw [hcf]
      exact min_eq_left hmin
    refine ⟨?_, hscore, ?_⟩
    · rw [hcf]
    · rw [hscore, hcf]
      exact decide_eq_true_iff

/-- Witness for claim C8 at the spec's own test vector (§8). -/
theorem score_relevance_spec_witness :
    ("aaa keyword bbb" : String) ≠ "" ∧ (["keyword"] : List String) ≠ [] ∧
    ((score_relevance "aaa keyword bbb" ["keyword"] FocusMode.RELEVANCE 0.1).matching_keywords =
      (["keyword"] : List String).filter
        (fun kw => containsSub (pyLower "aaa keyword bbb").data (pyLower kw).data) ∧
    (score_relevance "aaa keyword bbb" ["keyword"] FocusMode.RELEVANCE 0.1).score =
      specRelevanceRaw "aaa keyword bbb" ["keyword"] * kwWeight FocusMode.RELEVANCE ∧
    ((score_relevance "aaa keyword bbb" ["keyword"] FocusMode.RELEVANCE 0.1).relevant = true ↔
      (0.1 : ℚ) ≤ (score_relevance "aaa keyword bbb" ["keyword"] FocusMode.RELEVANCE 0.1).score)) :=
  ⟨by decide, by decide,
    (score_relevance_spec "aaa keyword bbb" ["keyword"] FocusMode.RELEVANCE 0.1).2
      (by decide) (by decide)⟩

/-- Claim C10: on nonempty content and keywords the returned score never
exceeds the mode's keyword-match weight (hence never exceeds `0.8`), so
in RELEVANCE mode (weight `0.6`) any threshold above `0.6` — including
the default `0.7` — can never be reached. -/
theorem score_relevance_bounded (content : String) (keywords : List String)
    (mode : FocusMode) (threshold : ℚ) (hc : content ≠ "") (hk : keywords ≠ []) :
    (score_relevance content keywords mode threshold).score ≤ kwWeight mode ∧
    (score_relevance content keywords mode threshold).score ≤ 4/5 ∧
    (mode = FocusMode.RELEVANCE → 3/5 < threshold →
      (score_relevance content keywords mode threshold).relevant = false) := by
  have hcf := score_relevance_closed_form content keywords mode threshold hc hk
  have hraw := specRelevanceRaw_le_one content keywords hc
  have hw0 := kwWeight_nonneg mode
  have hwle := kwWeight_le mode
  have hfw : specRelevanceRaw content keywords * kwWeight mode ≤ kwWeight mode :=
    mul_le_of_le_one_left hw0 hraw
  refine ⟨?_, ?_, ?_⟩
  · rw [hcf]
    exact le_trans (min_le_left _ _) hfw
  · rw [hcf]
    exact le_trans (min_le_left _ _) (le_trans hfw hwle)
  · intro hm ht
    subst hm
    rw [hcf]
    show decide _ = false
    rw [decide_eq_false_iff_not]
    intro hle
    rw [kwWeight_relevance] at hfw hle
    linarith

/-- Witness for claim C10 in RELEVANCE mode at the default threshold. -/
theorem score_relevance_bounded_witness :
    (score_relevance "abc" ["zz"] FocusMode.RELEVANCE 0.7).score ≤ kwWeight FocusMode.RELEVANCE ∧
    (score_relevance "abc" ["zz"] FocusMode.RELEVANCE 0.7).relevant = false :=
  ⟨(score_relevance_bounded "abc" ["zz"] FocusMode.RELEVANCE 0.7 (by decide) (by decide)).1,
   (score_relevance_bounded "abc" ["zz"] FocusMode.RELEVANCE 0.7 (by decide) (by decide)).2.2
     rfl (by norm_num)⟩

/-! ## Theorems: handler isolation and bounded history (claim C9) -/

/-- The default handler used for out-of-range indexing in statements. -/
def defaultHandler : Handler :=
  { hid := "", run := fun _ => Except.ok () }

/-- Claim C9: when a published envelope passes the compliance gate, every
subscribed handler for its topic is invoked in subscription order even if
an earlier one raises; the envelope is appended to the history, publish
returns `True`, and the history stays bounded by the capacity with the
oldest entry evicted first. -/
theorem publish_handler_isolation (bus : MessageBus) (m : NeuralMessage)
    (hs : List Handler) (i j : Nat) (e : String)
    (hsubs : getSubs bus m.topic = hs)
    (_hij : i < j) (hj : j < hs.length)
    (_herr : (hs.getD i defaultHandler).run m = Except.error e)
    (hcomp : checkCompliance m = true)
    (hcap : bus.max_history = 1000)
    (hlen : bus.history.length ≤ 1000) :
    (publish bus m).ok = true ∧
    (publish bus m).trace = hs.map (fun h => (h.hid, h.run m)) ∧
    ((publish bus m).trace.getD j ("", Except.ok ())) =
      ((hs.getD j defaultHandler).hid, (hs.getD j defaultHandler).run m) ∧
    (publish bus m).bus.history =
      (if 1000 < (bus.history ++ [m]).length then (bus.history ++ [m]).drop 1
       else bus.history ++ [m]) ∧
    m ∈ (publish bus m).bus.history ∧
    (publish bus m).bus.history.length ≤ 1000 := by
  have hpub : publish bus m =
      { ok := true
        trace := hs.map (fun h => (h.hid, h.run m))
        bus := { bus with history :=
          if 1000 < (bus.history ++ [m]).length then (bus.history ++ [m]).drop 1
          else bus.history ++ [m] } } := by
    rw [publish, hcomp]
    simp only [Bool.true_eq_false, if_false, hsubs, hcap]
  refine ⟨by rw [hpub], by rw [hpub], ?_, by rw [hpub], ?_, ?_⟩
  · rw [hpub]
    have hget : ∀ (l : List Handler) (k : Nat), k < l.length →
        ((l.map (fun h => (h.hid, h.run m))).getD k ("", Except.ok ())) =
          ((l.getD k defaultHandler).hid, (l.getD k defaultHandler).run m) := by
      intro l
      induction l with
      | nil => intro k hk; simp at hk
      | cons a t ih =>
        intro k hk
        cases k with
        | zero => rfl
        | succ k2 =>
          simp only [List.map_cons, List.getD_cons_succ]
          exact ih k2 (by simpa using hk)
    exact hget hs j hj
  · rw [hpub]
    by_cases hover : 1000 < (bus.history ++ [m]).length
    · simp only [hover, if_pos]
      have hne : bus.history ≠ [] := by
        intro hnil
        rw [hnil] at hover
        simp at hover
      cases bushist : bus.history with
      | nil => exact absurd bushist hne
      | cons a t =>
        simp [bushist]
    · simp only [hover, if_neg, if_false]
      simp
  · rw [hpub]
    by_cases hover : 1000 < (bus.history ++ [m]).length
    · simp only [hover, if_pos]
      simp only [List.length_drop, List.length_append]
      simp at hover ⊢
      omega
    · simp only [hover, if_neg, if_false]
      simp only [List.length_append, List.length_cons, List.length_nil]
      simp at hover
      omega

/-- A handler that raises on every message. -/
def faultyHandler : Handler :=
  { hid := "hA", run := fun _ => Except.error "boom" }

/-- A handler that succeeds on every message. -/
def okHandler : Handler :=
  { hid := "hB", run := fun _ => Except.ok () }

/-- A bus with a raising handler subscribed before a healthy one. -/
def isolationBus : MessageBus :=
  { subscribers := [("scrape/request", [faultyHandler, okHandler])]
    history := []
    max_history := 1000 }

/-- A compliant message on the topic both handlers subscribe to. -/
def isolationMsg : NeuralMessage :=
  { id := "m2"
    topic := "scrape/request"
    priority := .HIGH
    focus := defaultMessageFocus
    payload := .vDict [("url", .vStr "x")]
    context := defaultEnRouteContext 1
    source := "dashboard"
    destination := "scraper-vm"
    timestamp := 1
    ttl_seconds := 300
    requires_ack := true
    correlation_id := none
    constitutional_compliance := true }

/-- Witness for claim C9: handler `hA` raises, `hB` still runs, and the
envelope is recorded. -/
theorem publish_handler_isolation_witness :
    (publish isolationBus isolationMsg).ok = true ∧
    (publish isolationBus isolationMsg).trace =
      [faultyHandler, okHandler].map (fun h => (h.hid, h.run isolationMsg)) ∧
    ((publish isolationBus isolationMsg).trace.getD 1 ("", Except.ok ())) =
      (([faultyHandler, okHandler].getD 1 defaultHandler).hid,
       ([faultyHandler, okHandler].getD 1 defaultHandler).run isolationMsg) ∧
    (publish isolationBus isolationMsg).bus.history =
      (if 1000 < (isolationBus.history ++ [isolationMsg]).length
       then (isolationBus.history ++ [isolationMsg]).drop 1
       else isolationBus.history ++ [isolationMsg]) ∧
    isolationMsg ∈ (publish isolationBus isolationMsg).bus.history ∧
    (publish isolationBus isolationMsg).bus.history.length ≤ 1000 :=
  publish_handler_isolation isolationBus isolationMsg [faultyHandler, okHandler] 0 1 "boom"
    rfl (by decide) (by decide) rfl rfl rfl (by decide)
